import Mathlib

/-!
Shallow embedding of the INEX-Agent chat client's conversation-orchestration
core (`src/App.tsx`, with types from `src/types.ts` and the tool catalog from
`src/tools.ts`), together with theorems settling the specification claims
about it.

Conventions of the embedding:
* JavaScript numbers are modelled as exact rationals (`ℚ`); numeric literals
  such as `0.0000025`, `0.01`, `0.06`, `0.005`, `1.1` become the corresponding
  rationals.
* JSON values are a small inductive `Json` with a `stringify` mirroring
  `JSON.stringify` on the values the program builds.
* External effects (the generation stream, the search relay, media
  generation, `Function` evaluation for the calculator, fresh ids) are
  supplied by an explicit environment (`ToolEnv`, stream chunk lists); each
  fallible external interaction yields `Except Unit _`, and the program's
  `try/catch` handlers are modelled explicitly.
* React state updates (`setConversations`, `setBalance`, ...) become pure
  state transitions on `AppState`.
-/

namespace INEX

/-- `Math.ceil(n / 4)` on a natural number. -/
def ceilDiv4 (n : Nat) : Nat := (n + 3) / 4

/-- JSON values as produced and consumed by the tool executor. -/
inductive Json where
  | null
  | jbool (b : Bool)
  | num (n : Int)
  | str (s : String)
  | arr (elems : List Json)
  | obj (fields : List (String × Json))

mutual

/-- `JSON.stringify` on the JSON values this program builds (its strings
contain no characters needing escapes, so escaping is identity here). -/
def Json.stringify : Json → String
  | .null => "null"
  | .jbool true => "true"
  | .jbool false => "false"
  | .num n => toString n
  | .str s => "\"" ++ s ++ "\""
  | .arr xs => "[" ++ Json.stringifyArr xs ++ "]"
  | .obj kvs => "\x7b" ++ Json.stringifyObj kvs ++ "\x7d"

def Json.stringifyArr : List Json → String
  | [] => ""
  | [x] => Json.stringify x
  | x :: rest => Json.stringify x ++ "," ++ Json.stringifyArr rest

def Json.stringifyObj : List (String × Json) → String
  | [] => ""
  | [(k, v)] => "\"" ++ k ++ "\":" ++ Json.stringify v
  | (k, v) :: rest => "\"" ++ k ++ "\":" ++ Json.stringify v ++ "," ++ Json.stringifyObj rest

end

/-- Property lookup `j[k]` on a JSON object (`undefined` is `none`). -/
def Json.getField : Json → String → Option Json
  | .obj kvs, k => (kvs.find? (fun kv => kv.1 = k)).map (fun kv => kv.2)
  | _, _ => none

/-- A string-valued property, `""` when absent or not a string. -/
def Json.strField (j : Json) (k : String) : String :=
  match j.getField k with
  | some (.str s) => s
  | _ => ""

/-- `j[k] || dflt` for a string-valued property (JavaScript `||`: the empty
string is falsy and falls through to the default). -/
def Json.strFieldOr (j : Json) (k : String) (dflt : String) : String :=
  match j.getField k with
  | some (.str s) => if s = "" then dflt else s
  | _ => dflt

/-- JavaScript truthiness of a JSON value. -/
def jsTruthy : Json → Bool
  | .null => false
  | .jbool b => b
  | .num n => n ≠ 0
  | .str s => s ≠ ""
  | .arr _ => true
  | .obj _ => true

/-- Truthiness of `j?.k` (optional chaining plus property access). -/
def jsTruthyField (j : Json) (k : String) : Bool :=
  match j.getField k with
  | some v => jsTruthy v
  | none => false

/-- An entry of `settings.memories`. -/
structure MemoryEntry where
  id : String
  content : String
  createdAt : Nat

/-- `settings.apiKeys` from `SettingsModal.tsx`. -/
structure ApiKeys where
  text : List String
  image : List String
  audio : List String
  search : List String

/-- The `Settings` record from `SettingsModal.tsx` (the fields the core
reads). -/
structure Settings where
  name : String
  email : String
  phoneNumber : String
  birthDate : String
  instructions : String
  memoryEnabled : Bool
  memories : List MemoryEntry
  preferences : List String
  apiKeys : ApiKeys

/-- `defaultSettings` from `SettingsModal.tsx`. -/
def defaultSettings : Settings :=
  { name := "", email := "", phoneNumber := "", birthDate := "", instructions := ""
    memoryEnabled := false, memories := [], preferences := []
    apiKeys := { text := [], image := [], audio := [], search := [] } }

/-- `keys[0]` coerced as JavaScript does for string indexing (`undefined`
becomes the falsy `""`). -/
def firstKey (ks : List String) : String := ks.headD ""

/-- Truthiness of `keys[0]`: a first element exists and is non-empty. -/
def hasKey (ks : List String) : Bool := ks.headD "" ≠ ""

/-- A tool invocation `{id, name, args}` surfaced by the generation
service. -/
structure ToolCall where
  id : Option String
  name : String
  args : Json

/-- A node of the virtual file manager (`types.ts`; the timestamp and binary
payload fields, which the tool executor never reads, are omitted). -/
structure FileNode where
  id : String
  name : String
  isFolder : Bool
  parentId : Option String
  content : Option String

/-- Environment supplying the outcomes of the tool executor's external
interactions. Each `Except Unit _` is the outcome of the corresponding
side-effecting call inside the `try` block of `executeToolLogic`:
`.error ()` models a thrown exception. -/
structure ToolEnv where
  /-- Outcome of `Function('"use strict";return (expr)')()` for the
  calculator. -/
  calcEval : String → Except Unit Json
  /-- Outcome of the whole `webSearch` network interaction (the
  `/api/search` fetch, JSON parsing and `organic_results` shaping),
  given the query and `apiKeys.search[0]`. -/
  searchRelay : String → String → Except Unit Json
  /-- Outcome of image generation, given prompt and model id: the base64
  payload found in the response, if any. -/
  imageGen : String → String → Except Unit (Option String)
  /-- Outcome of audio generation (including the PCM-to-WAV repackaging),
  given text and voice: the base64 payload, if any. -/
  audioGen : String → String → Except Unit (Option String)
  /-- Fresh id minted for a saved memory. -/
  freshMemId : String
  /-- Fresh id minted for a created file or folder node. -/
  freshNodeId : String

/-- The names dispatched by the virtual-filesystem branch of
`executeToolLogic`. -/
def fsToolNames : List String :=
  ["createFile", "createFolder", "deleteNode", "readFile", "editFile", "renameNode", "listFiles"]

/-- The names dispatched by the memory branch of the cost computation. -/
def memoryToolNames : List String := ["saveMemory", "updateMemory", "deleteMemory"]

/-- All fourteen tool names the dispatcher recognises. -/
def supportedToolNames : List String :=
  ["calculator", "webSearch", "generateImage", "generateAudio"] ++ memoryToolNames ++ fsToolNames

/-- `args.parentId || null` for the file-manager tools. -/
def parentIdArg (args : Json) : Option String :=
  match args.getField "parentId" with
  | some (.str s) => if s = "" then none else some s
  | _ => none

/-- The body of the `try` block of `executeToolLogic` (`App.tsx` 302-492):
dispatch on `call.name` and produce the `result` value. `.error ()` is an
exception escaping the body (to be caught by the handler). The mutations of
the memory store and the file store are side channels not observed by any
claim; only the returned result values are modelled. -/
def dispatchBody (env : ToolEnv) (s : Settings) (files : List FileNode)
    (call : ToolCall) : Except Unit Json :=
  if call.name = "calculator" then
    env.calcEval (call.args.strField "expression")
  else if call.name = "webSearch" then
    env.searchRelay (call.args.strField "query") (firstKey s.apiKeys.search)
  else if call.name = "generateImage" then
    match env.imageGen (call.args.strField "prompt")
        (call.args.strFieldOr "model" "gemini-2.5-flash-image") with
    | .error e => .error e
    | .ok (some b64) => .ok (.obj [("imageBase64", .str b64)])
    | .ok none => .ok (.str "Failed to generate image.")
  else if call.name = "generateAudio" then
    match env.audioGen (call.args.strField "text")
        (call.args.strFieldOr "voice" "Kore") with
    | .error e => .error e
    | .ok (some b64) => .ok (.obj [("audioBase64", .str b64)])
    | .ok none => .ok (.str "Failed to generate audio.")
  else if call.name = "saveMemory" then
    .ok (.str ("Memory saved successfully with ID: " ++ env.freshMemId))
  else if call.name = "updateMemory" then
    if s.memories.any (fun m => m.id = call.args.strField "id") then
      .ok (.str ("Memory " ++ call.args.strField "id" ++ " updated successfully."))
    else
      .ok (.str ("Memory with ID " ++ call.args.strField "id" ++ " not found."))
  else if call.name = "deleteMemory" then
    if s.memories.any (fun m => m.id = call.args.strField "id") then
      .ok (.str ("Memory " ++ call.args.strField "id" ++ " deleted successfully."))
    else
      .ok (.str ("Memory with ID " ++ call.args.strField "id" ++ " not found."))
  else if call.name = "createFile" then
    .ok (.str ("File created successfully with ID: " ++ env.freshNodeId))
  else if call.name = "createFolder" then
    .ok (.str ("Folder created successfully with ID: " ++ env.freshNodeId))
  else if call.name = "deleteNode" then
    if files.any (fun f => f.id = call.args.strField "id") then
      .ok (.str "Node and its children deleted successfully.")
    else
      .ok (.str ("Node with ID " ++ call.args.strField "id" ++ " not found."))
  else if call.name = "readFile" then
    match files.find? (fun f => f.id = call.args.strField "id") with
    | some node =>
      if node.isFolder then
        .ok (.str ("File with ID " ++ call.args.strField "id" ++ " not found or is a folder."))
      else
        .ok (.str (match node.content with
          | some c => if c = "" then "File is empty or binary." else c
          | none => "File is empty or binary."))
    | none =>
      .ok (.str ("File with ID " ++ call.args.strField "id" ++ " not found or is a folder."))
  else if call.name = "editFile" then
    match files.find? (fun f => f.id = call.args.strField "id") with
    | some node =>
      if node.isFolder then
        .ok (.str ("File with ID " ++ call.args.strField "id" ++ " not found or is a folder."))
      else
        .ok (.str ("File " ++ call.args.strField "id" ++ " edited successfully."))
    | none =>
      .ok (.str ("File with ID " ++ call.args.strField "id" ++ " not found or is a folder."))
  else if call.name = "renameNode" then
    if files.any (fun f => f.id = call.args.strField "id") then
      .ok (.str ("Node " ++ call.args.strField "id" ++ " renamed to "
        ++ call.args.strField "newName" ++ "."))
    else
      .ok (.str ("Node with ID " ++ call.args.strField "id" ++ " not found."))
  else if call.name = "listFiles" then
    let children := (files.filter (fun f => f.parentId = parentIdArg call.args)).map
      (fun f => Json.obj [("id", .str f.id), ("name", .str f.name), ("isFolder", .jbool f.isFolder)])
    if children.isEmpty then .ok (.str "Folder is empty.") else .ok (.arr children)
  else
    .ok (.str "Tool not supported.")

/-- The `try/catch` of `executeToolLogic`: any exception in the dispatch body
is converted into the string result `"Error executing tool"`. -/
def executeResult (env : ToolEnv) (s : Settings) (files : List FileNode)
    (call : ToolCall) : Json :=
  match dispatchBody env s files call with
  | .ok v => v
  | .error _ => .str "Error executing tool"

/-- `getTokenCount` from `executeToolLogic`: `0` for `undefined`/`null`, the
raw length for strings, the `JSON.stringify` length otherwise, divided by 4
and rounded up. -/
def getTokenCount : Option Json → Nat
  | none => 0
  | some .null => 0
  | some (.str s) => ceilDiv4 s.length
  | some j => ceilDiv4 j.stringify.length

/-- `getTokenCost` from `executeToolLogic`: `tokens * 0.0000025`. -/
def getTokenCost (tokens : Nat) : ℚ := tokens * (25 / 10000000)

/-- `wordCount` for the audio surcharge:
`call.args.text ? call.args.text.trim().split(/\s+/).length : 0`
(non-string `text` values are not modelled). -/
def audioWordCount (args : Json) : Nat :=
  match args.getField "text" with
  | some (.str s) =>
    if s = "" then 0
    else
      let t := s.trim
      if t = "" then 1 else ((t.split Char.isWhitespace).filter (fun w => w ≠ "")).length
  | _ => 0

/-- The cost block of `executeToolLogic` (`App.tsx` 497-532). The source
first computes the uncredentialed cost and then overwrites it when a caller
key is present; the equivalent conditional is written directly. -/
def toolCostOf (s : Settings) (call : ToolCall) (result : Json) : ℚ :=
  let inputTokens := getTokenCount (some call.args)
  let outputTokens := getTokenCount (some result)
  let totalTokenCost := getTokenCost inputTokens + getTokenCost outputTokens
  if call.name = "webSearch" then
    if hasKey s.apiKeys.search then totalTokenCost * (11/10)
    else (1/100 + totalTokenCost) * (11/10)
  else if call.name = "calculator" then
    totalTokenCost * (11/10)
  else if call.name = "generateImage" then
    if hasKey s.apiKeys.image then totalTokenCost * (11/10)
    else
      let baseCost : ℚ :=
        if call.args.strField "model" = "gemini-3.1-flash-image-preview" then 6/100 else 6/100
      (baseCost + totalTokenCost) * (11/10)
  else if call.name = "generateAudio" then
    if hasKey s.apiKeys.audio then totalTokenCost * (11/10)
    else (1/100 + totalTokenCost + audioWordCount call.args * (5/1000)) * (11/10)
  else if call.name ∈ fsToolNames then
    (totalTokenCost + 5/1000) * (11/10)
  else if call.name ∈ memoryToolNames then
    (totalTokenCost + 5/1000) * (11/10)
  else 0

/-- The record returned by `executeToolLogic`. -/
structure ToolExec where
  result : Json
  costToAdd : ℚ
  inputTokens : Nat
  outputTokens : Nat
  totalToolTokens : Nat

/-- `executeToolLogic` (`App.tsx` 296-539), minus the balance update, which
`applyToolDebit` performs on the caller's balance. -/
def executeToolLogic (env : ToolEnv) (s : Settings) (files : List FileNode)
    (call : ToolCall) : ToolExec :=
  let result := executeResult env s files call
  let inputTokens := getTokenCount (some call.args)
  let outputTokens := getTokenCount (some result)
  { result := result
    costToAdd := toolCostOf s call result
    inputTokens := inputTokens
    outputTokens := outputTokens
    totalToolTokens := inputTokens + outputTokens }

/-- The balance clamp `Math.max(0, prev - cost)` used by every debit. -/
def debit (bal cost : ℚ) : ℚ := max 0 (bal - cost)

/-- The guarded debit at the end of `executeToolLogic`:
`if (costToAdd > 0) setBalance(prev => Math.max(0, prev - costToAdd))`. -/
def applyToolDebit (cost bal : ℚ) : ℚ := if 0 < cost then debit bal cost else bal

/-- Modelled from the spec wording of the cost model (claim C3 / spec 4.2):
`inputTokens = ceil(len(serialize(args))/4)`,
`outputTokens = ceil(len(serialize(result))/4)`,
`tokenCost = (inputTokens+outputTokens) * 0.0000025`, then the per-family
formula with the flat surcharge dropped exactly when a caller-supplied
credential exists for that capability, and a single 10% markup. `serialize`
is the token serializer the cost model is defined over: raw text for
strings, JSON text otherwise, empty for an absent value. -/
def specToolCost (s : Settings) (call : ToolCall) (result : Json) : ℚ :=
  let inputTokens := getTokenCount (some call.args)
  let outputTokens := getTokenCount (some result)
  let tokenCost : ℚ := (inputTokens + outputTokens) * (25 / 10000000)
  if call.name = "webSearch" then
    (if hasKey s.apiKeys.search then tokenCost else 1/100 + tokenCost) * (11/10)
  else if call.name = "calculator" then
    tokenCost * (11/10)
  else if call.name = "generateImage" then
    (if hasKey s.apiKeys.image then tokenCost else 6/100 + tokenCost) * (11/10)
  else if call.name = "generateAudio" then
    (if hasKey s.apiKeys.audio then tokenCost
     else 1/100 + tokenCost + audioWordCount call.args * (5/1000)) * (11/10)
  else if call.name ∈ fsToolNames then
    (tokenCost + 5/1000) * (11/10)
  else if call.name ∈ memoryToolNames then
    (tokenCost + 5/1000) * (11/10)
  else 0

/-- `MessageStatus` from `types.ts`. -/
inductive MessageStatus where
  | sending | sent | processing | done | error | waiting_approval | aborted
  | waiting_variant_selection
deriving DecidableEq

/-- Message roles from `types.ts`. -/
inductive Role where
  | user | model | function
deriving DecidableEq

/-- An A/B variant `{id, text, tone}`. -/
structure Variant where
  id : String
  text : String
  tone : String
deriving DecidableEq

/-- `toolResult = {id, name, result, cost?}` on a function message. -/
structure ToolResInfo where
  id : Option String
  name : String
  result : Json
  cost : Option ℚ

/-- An immutable attachment record on a sent message. -/
structure MsgAttachment where
  name : String
  mimeType : String
  base64 : String
deriving DecidableEq

/-- `tokens = {prompt, candidates, total}` on a message. -/
structure TokenInfo where
  prompt : Nat
  candidates : Nat
  total : Nat
deriving DecidableEq

/-- `Message` from `types.ts` (timestamp and duration, which no claim
observes, are omitted). -/
structure Message where
  id : String
  role : Role
  text : String
  status : MessageStatus
  tokens : Option TokenInfo := none
  cost : Option ℚ := none
  pendingToolCall : Option ToolCall := none
  toolResult : Option ToolResInfo := none
  attachments : List MsgAttachment := []
  variants : Option (List Variant) := none

/-- The per-conversation mode gating tool approval. -/
inductive ConvMode where
  | manual | auto
deriving DecidableEq

/-- `Conversation` from `types.ts` (title/updatedAt/pinned omitted). -/
structure Conversation where
  id : String
  messages : List Message
  mode : Option ConvMode := none

/-- The application state the orchestrator mutates: the conversation list,
the balance and the settings store. -/
structure AppState where
  conversations : List Conversation
  balance : ℚ
  settings : Settings

/-- `role` as the transport string. -/
def roleStr : Role → String
  | .user => "user"
  | .model => "model"
  | .function => "function"

/-- A part of a request content: plain text or inline base64 data. -/
inductive Part where
  | text (s : String)
  | inlineData (data : String) (mimeType : String)

/-- One entry of the `contents` request payload. -/
structure Content where
  role : String
  parts : List Part

/-- The synthetic tool-response text for a function message (`App.tsx`
563-571). -/
def toolResultText (tr : ToolResInfo) : String :=
  if jsTruthyField tr.result "audioBase64" then "[Audio Generated Successfully]"
  else if jsTruthyField tr.result "imageBase64" then "[Image Generated Successfully]"
  else
    match tr.result with
    | .str s => s
    | j => j.stringify

/-- Re-encoding of one history message into a request content (`App.tsx`
556-586): a model message with a pending tool call becomes a synthetic
action note, a function message becomes a user-role tool-response note, and
any other message passes its text and inline attachment payloads through. -/
def buildContent (m : Message) : Content :=
  match m.role, m.pendingToolCall, m.toolResult with
  | .model, some tc, _ =>
    { role := "model"
      parts := [.text (if m.text ≠ "" then m.text
        else "[Action: Calling tool " ++ tc.name ++ "]")] }
  | .function, _, some tr =>
    { role := "user"
      parts := [.text ("[Tool Response from " ++ tr.name ++ "]:\n" ++ toolResultText tr)] }
  | _, _, _ =>
    { role := roleStr m.role
      parts := (if m.text ≠ "" then [Part.text m.text] else [])
        ++ m.attachments.map (fun a => Part.inlineData a.base64 a.mimeType) }

/-- Serialization of the whole history into the request payload. -/
def buildContents (history : List Message) : List Content :=
  history.map buildContent

/-- The size one part contributes to the fallback prompt-token estimate
(`App.tsx` 696-705): text contributes its character length, inline data
contributes `Math.ceil(data.length / 4)`. -/
def partSize : Part → Nat
  | .text s => s.length
  | .inlineData d _ => ceilDiv4 d.length

/-- The fallback prompt-token estimate used when the service reported no
prompt-token count: `Math.ceil(totalSize / 4)` over all parts. -/
def estimatePromptTokens (cs : List Content) : Nat :=
  ceilDiv4 ((cs.map (fun c => (c.parts.map partSize).sum)).sum)

/-- Modelled from the claim wording (claim C7): the fallback prompt-token
estimate is `ceil(totalBytes/4)` where `totalBytes` sums the character
lengths of all text parts plus the payload lengths of all inline attachment
parts, each attachment counted by the same bytes-over-4 heuristic as text,
i.e. contributing its raw length to `totalBytes`. -/
def specEstimatePromptTokens (cs : List Content) : Nat :=
  ceilDiv4 ((cs.map (fun c =>
    (c.parts.map (fun p => match p with
      | .text s => s.length
      | .inlineData d _ => d.length)).sum)).sum)

/-- One streamed increment. An absent `text` is modelled as `""` (JavaScript
treats both as falsy no-ops); absent usage counters are modelled as `0`
(`count || previous` keeps the previous value in both cases). -/
structure StreamChunk where
  text : String
  promptTokenCount : Nat
  candidatesTokenCount : Nat
  functionCalls : List ToolCall

/-- How stream consumption ended. -/
inductive StreamEnd where
  | aborted
  | toolCall (tc : ToolCall)
  | completed

/-- Result of consuming the stream. -/
structure StreamResult where
  text : String
  pTokens : Nat
  cTokens : Nat
  ending : StreamEnd

/-- Whether the cancellation signal (raised after `abortAt` increments) is
already observed at the top of iteration `i`. -/
def abortNow (abortAt : Option Nat) (i : Nat) : Bool :=
  match abortAt with
  | some n => decide (n ≤ i)
  | none => false

/-- The streaming loop of `runAI` (`App.tsx` 632-670). `abortAt = some n`
models the cancellation signal being raised after `n` increments have been
consumed: the check at the top of each iteration fires as soon as the
iteration index reaches `n`. Text accumulates, usage counters overwrite only
non-zero, and the first chunk carrying a tool invocation stops consumption
immediately. -/
def consumeStream (abortAt : Option Nat) : List StreamChunk → Nat → String → Nat → Nat → StreamResult
  | [], _, acc, p, c => ⟨acc, p, c, .completed⟩
  | ch :: rest, i, acc, p, c =>
    if abortNow abortAt i then ⟨acc, p, c, .aborted⟩
    else
      let acc := acc ++ ch.text
      let p := if ch.promptTokenCount ≠ 0 then ch.promptTokenCount else p
      let c := if ch.candidatesTokenCount ≠ 0 then ch.candidatesTokenCount else c
      match ch.functionCalls with
      | tc :: _ => ⟨acc, p, c, .toolCall tc⟩
      | [] => consumeStream abortAt rest (i + 1) acc p c

/-- Concatenation of the text increments of a chunk list. -/
def concatTexts : List StreamChunk → String
  | [] => ""
  | ch :: rest => ch.text ++ concatTexts rest

/-- The visible marker appended to an aborted generation. -/
def stoppedMarker : String := "\n\n*(Generation stopped by user)*"

/-- The memory block appended to the system instruction. -/
def memLines : List MemoryEntry → String
  | [] => ""
  | m :: rest => "- [ID: " ++ m.id ++ "] " ++ m.content ++ "\n" ++ memLines rest

/-- The preference block appended to the system instruction. -/
def prefLines : List String → String
  | [] => ""
  | p :: rest => "- " ++ p ++ "\n" ++ prefLines rest

/-- The system instruction `runAI` builds (`App.tsx` 588-606). -/
def buildSysInst (s : Settings) (today : String) : String :=
  "You are INEX Agent, an advanced AI assistant. Format your responses using markdown.\nToday\x27s Date: "
    ++ today ++ "\n"
    ++ (if s.name ≠ "" then "User Name: " ++ s.name ++ "\n" else "")
    ++ (if s.email ≠ "" then "User Email: " ++ s.email ++ "\n" else "")
    ++ (if s.phoneNumber ≠ "" then "User Phone Number: " ++ s.phoneNumber ++ "\n" else "")
    ++ (if s.birthDate ≠ "" then
        "User Birth Date: " ++ s.birthDate
          ++ ". Calculate their current age based on today\x27s date. If they ask for age + 5, calculate it accordingly.\n"
        else "")
    ++ (if s.instructions ≠ "" then "User Instructions: " ++ s.instructions ++ "\n" else "")
    ++ (if s.memoryEnabled then
        "\nCRITICAL INSTRUCTION FOR MEMORY: You MUST automatically use the \x27saveMemory\x27 tool to save any new personal facts, preferences, phone numbers, or details the user mentions about themselves. Do this proactively without asking for permission.\n"
          ++ (if ¬ s.memories.isEmpty then
              "\nUser Memories (You can use tools to add/update/delete these):\n" ++ memLines s.memories
              else "")
        else "")
    ++ (if ¬ s.preferences.isEmpty then
        "\nUser Communication Preferences:\n" ++ prefLines s.preferences
        else "")

/-- The per-model pricing record from `AI_LEVELS`. -/
structure AILevel where
  model : String
  inPrice : ℚ
  outPrice : ℚ

/-- What one invocation of `runAI` did. -/
inductive TurnAction where
  | stopAborted
  | waitApproval
  | recurseTool
  | finishedDone
deriving DecidableEq

/-- The observable outcome of one `runAI` invocation: the final model
message, the appended function-result message if a tool ran, the balance
after the turn, and how the turn ended. -/
structure TurnResult where
  modelMsg : Message
  toolMsg : Option Message
  balance : ℚ
  action : TurnAction

/-- Inputs of one `runAI` invocation: the history the request is built
from, the stream the service answers with, the point at which the
cancellation signal is raised (if ever), the conversation mode
(`conv?.mode || 'manual'` already resolved), the pricing level and the
fresh ids for the messages this turn creates. -/
structure TurnInput where
  history : List Message
  chunks : List StreamChunk
  abortAt : Option Nat
  mode : ConvMode
  level : AILevel
  modelMsgId : String
  toolMsgId : String

/-- One `runAI` invocation (`App.tsx` 541-835), driven by a pure stream:
consume increments until abort, tool call or completion; on abort mark the
message `aborted` with the accumulated text plus the stopped marker and no
debit; on a tool call estimate missing token counts and either execute
immediately (auto) and recurse, or park in `waiting_approval` (manual); on
normal completion estimate missing token counts, compute the generation
cost with the 10% markup (zero with a caller text key) and debit the
balance. -/
def runTurn (env : ToolEnv) (s : Settings) (files : List FileNode)
    (inp : TurnInput) (balance : ℚ) : TurnResult :=
  let contents := buildContents inp.history
  match consumeStream inp.abortAt inp.chunks 0 "" 0 0 with
  | ⟨accText, _, _, .aborted⟩ =>
    { modelMsg :=
        { id := inp.modelMsgId, role := .model,
          text := accText ++ stoppedMarker, status := .aborted },
      toolMsg := none, balance := balance, action := .stopAborted }
  | ⟨accText, pTokens, cTokens, .toolCall tc⟩ =>
    let p := if pTokens = 0 then estimatePromptTokens contents else pTokens
    let c := if cTokens = 0 then ceilDiv4 accText.length else cTokens
    match inp.mode with
    | .auto =>
      let ex := executeToolLogic env s files tc
      let toolMsg : Message :=
        { id := inp.toolMsgId, role := .function, text := "Executed: " ++ tc.name,
          status := .done,
          toolResult := some ⟨tc.id, tc.name, ex.result, some ex.costToAdd⟩,
          tokens := some ⟨ex.inputTokens, ex.outputTokens, ex.totalToolTokens⟩ }
      { modelMsg :=
          { id := inp.modelMsgId, role := .model, text := accText,
            status := .done, pendingToolCall := some tc,
            tokens := some ⟨p, c, p + c⟩ },
        toolMsg := some toolMsg,
        balance := applyToolDebit ex.costToAdd balance,
        action := .recurseTool }
    | .manual =>
      { modelMsg :=
          { id := inp.modelMsgId, role := .model, text := accText,
            status := .waiting_approval, pendingToolCall := some tc,
            tokens := some ⟨p, c, p + c⟩ },
        toolMsg := none, balance := balance, action := .waitApproval }
  | ⟨accText, pTokens, cTokens, .completed⟩ =>
    let p := if pTokens = 0 then estimatePromptTokens contents else pTokens
    let c := if cTokens = 0 then ceilDiv4 accText.length else cTokens
    let cost := p * (inp.level.inPrice / 1000000) + c * (inp.level.outPrice / 1000000)
    let finalCost := if hasKey s.apiKeys.text then 0 else cost * (11/10)
    { modelMsg :=
        { id := inp.modelMsgId, role := .model, text := accText,
          status := .done, tokens := some ⟨p, c, p + c⟩, cost := some finalCost },
      toolMsg := none,
      balance := debit balance finalCost,
      action := .finishedDone }

/-- Mark the resolved message `done` in place (`conv.messages.map(...)` in
the approve/reject handlers); no other field changes — in particular
`pendingToolCall` is left as it was. -/
def setStatusDone (msgs : List Message) (msgId : String) : List Message :=
  msgs.map fun m => if m.id = msgId then { m with status := .done } else m

/-- `handleApproveTool` (`App.tsx` 1071-1105), up to and including the state
update; the returned flag records that the follow-up `runAI` was invoked on
the updated history. -/
def handleApproveTool (env : ToolEnv) (files : List FileNode) (st : AppState)
    (convId msgId newToolMsgId : String) : AppState × Bool :=
  match st.conversations.find? (fun c => c.id = convId) with
  | none => (st, false)
  | some conv =>
    match conv.messages.find? (fun m => m.id = msgId) with
    | none => (st, false)
    | some msg =>
      match msg.pendingToolCall with
      | none => (st, false)
      | some call =>
        let ex := executeToolLogic env st.settings files call
        let toolResMsg : Message :=
          { id := newToolMsgId, role := .function, text := "Executed: " ++ call.name,
            status := .done,
            toolResult := some ⟨call.id, call.name, ex.result, some ex.costToAdd⟩,
            tokens := some ⟨ex.inputTokens, ex.outputTokens, ex.totalToolTokens⟩ }
        let updatedHistory := setStatusDone conv.messages msgId ++ [toolResMsg]
        ({ st with
            conversations := st.conversations.map fun c =>
              if c.id = convId then { c with messages := updatedHistory } else c,
            balance := applyToolDebit ex.costToAdd st.balance }, true)

/-- The denial string recorded by a rejection. -/
def rejectionText : String := "User denied permission to run this tool."

/-- `handleRejectTool` (`App.tsx` 1112-1140): inject a synthetic
function-result message carrying the denial string, mark the pending-call
message `done`, and trigger the follow-up `runAI` (recorded by the flag).
No debit occurs. -/
def handleRejectTool (st : AppState) (convId msgId newToolMsgId : String) :
    AppState × Bool :=
  match st.conversations.find? (fun c => c.id = convId) with
  | none => (st, false)
  | some conv =>
    match conv.messages.find? (fun m => m.id = msgId) with
    | none => (st, false)
    | some msg =>
      match msg.pendingToolCall with
      | none => (st, false)
      | some call =>
        let rejectionTokens := ceilDiv4 rejectionText.length
        let toolResMsg : Message :=
          { id := newToolMsgId, role := .function, text := "User rejected tool execution.",
            status := .done,
            toolResult := some ⟨call.id, call.name, .str rejectionText, none⟩,
            tokens := some ⟨0, rejectionTokens, rejectionTokens⟩ }
        let updatedHistory := setStatusDone conv.messages msgId ++ [toolResMsg]
        ({ st with
            conversations := st.conversations.map fun c =>
              if c.id = convId then { c with messages := updatedHistory } else c }, true)

/-- `handleSelectVariant` (`App.tsx` 1055-1069): durably record the
preference string, replace the probe message's text with the chosen
variant's text, clear `variants` and set status `done`. -/
def handleSelectVariant (st : AppState) (activeId msgId : String) (variant : Variant) :
    AppState :=
  { st with
    settings := { st.settings with
      preferences := st.settings.preferences
        ++ ["User prefers " ++ variant.tone ++ " tone."] },
    conversations := st.conversations.map fun c =>
      if c.id = activeId then
        { c with messages := c.messages.map fun m =>
            if m.id = msgId then
              { m with text := variant.text, status := .done, variants := none }
            else m }
      else c }

/-- The user-authored message count of a history. -/
def userMsgCount (msgs : List Message) : Nat :=
  (msgs.filter (fun m => m.role = .user)).length

/-- The A/B diversion decision of `handleSend` (`App.tsx` 938-939), taken on
the history with the new user message already appended. -/
def isABTest (updatedMessages : List Message) : Bool :=
  decide (0 < userMsgCount updatedMessages) && decide (userMsgCount updatedMessages % 10 = 0)

/-! ### Concrete scenario material shared by several claims -/

/-- An environment in which every external interaction throws. -/
def envErr : ToolEnv :=
  { calcEval := fun _ => .error (), searchRelay := fun _ _ => .error (),
    imageGen := fun _ _ => .error (), audioGen := fun _ _ => .error (),
    freshMemId := "mem-1", freshNodeId := "node-1" }

/-- The calculator invocation of scenario A:
`calculator({expression:"2+2"})`. -/
def calcCall : ToolCall := ⟨some "call-1", "calculator", .obj [("expression", .str "2+2")]⟩

/-- An environment in which `Function` evaluation of `"2+2"` yields `4` and
every other external interaction throws. -/
def envCalc : ToolEnv :=
  { envErr with calcEval := fun e => if e = "2+2" then .ok (.num 4) else .error () }

/-- The declared `editImage` tool invoked with well-formed arguments; its
name is dispatched by no branch of the executor. -/
def editImageCall : ToolCall :=
  ⟨none, "editImage", .obj [("prompt", .str "make it blue"), ("model", .str "gemini-2.5-flash-image")]⟩

/-! ### Claim C4 — balance clamping -/

theorem debit_foldl_eq (ds : List ℚ) : ∀ b : ℚ, 0 ≤ b → (∀ d ∈ ds, 0 ≤ d) →
    ds.foldl debit b = max 0 (b - ds.sum) := by
  induction ds with
  | nil => intro b hb _; simp [max_eq_right hb]
  | cons d ds ih =>
    intro b hb hds
    have hd : 0 ≤ d := hds d (List.mem_cons_self d ds)
    have hsum : 0 ≤ ds.sum := List.sum_nonneg (fun x hx => hds x (List.mem_cons_of_mem d hx))
    have h1 : List.foldl debit b (d :: ds) = List.foldl debit (debit b d) ds := rfl
    rw [h1, ih (debit b d) (le_max_left _ _) (fun x hx => hds x (List.mem_cons_of_mem d hx))]
    rcases le_or_lt 0 (b - d) with h | h
    · rw [show debit b d = b - d from max_eq_right h, List.sum_cons]
      ring_nf
    · rw [show debit b d = 0 from max_eq_left (le_of_lt h), List.sum_cons]
      rw [max_eq_left (by linarith), max_eq_left (by linarith)]

theorem applyToolDebit_eq_debit (b d : ℚ) (hb : 0 ≤ b) (hd : 0 ≤ d) :
    applyToolDebit d b = debit b d := by
  unfold applyToolDebit
  rcases lt_or_eq_of_le hd with h | h
  · rw [if_pos h]
  · rw [if_neg (by rw [← h]; exact lt_irrefl 0), ← h]
    unfold debit
    rw [sub_zero, max_eq_right hb]

/-- Claim C4 (confirmed): starting from a non-negative balance, any finite
sequence of non-negative debits — whether applied through the tool
executor's guarded debit or the generation debit clamp — leaves the balance
at `max(0, b - Σ debits)`; in particular it never goes negative. -/
theorem balance_never_negative (b : ℚ) (ds : List ℚ) (hb : 0 ≤ b)
    (hds : ∀ d ∈ ds, 0 ≤ d) :
    ds.foldl debit b = max 0 (b - ds.sum) ∧
    ds.foldl (fun bal d => applyToolDebit d bal) b = max 0 (b - ds.sum) ∧
    0 ≤ ds.foldl debit b := by
  have hmain := debit_foldl_eq ds b hb hds
  have hsame : ∀ (l : List ℚ) (b2 : ℚ), 0 ≤ b2 → (∀ d ∈ l, 0 ≤ d) →
      l.foldl (fun bal d => applyToolDebit d bal) b2 = l.foldl debit b2 := by
    intro l
    induction l with
    | nil => intro b2 _ _; rfl
    | cons d l ih =>
      intro b2 hb2 hl
      have hd : 0 ≤ d := hl d (List.mem_cons_self d l)
      show List.foldl _ (applyToolDebit d b2) l = List.foldl debit (debit b2 d) l
      rw [applyToolDebit_eq_debit b2 d hb2 hd]
      exact ih (debit b2 d) (le_max_left _ _) (fun x hx => hl x (List.mem_cons_of_mem d hx))
  refine ⟨hmain, ?_, ?_⟩
  · rw [hsame ds b hb hds, hmain]
  · rw [hmain]; exact le_max_left _ _

/-- Witness for C4 at the concrete balance 2 and debits [1, 3]. -/
theorem balance_never_negative_witness :
    (0:ℚ) ≤ 2 ∧
    ([(1:ℚ), 3].foldl debit 2 = max 0 (2 - [(1:ℚ), 3].sum) ∧
     [(1:ℚ), 3].foldl (fun bal d => applyToolDebit d bal) 2 = max 0 (2 - [(1:ℚ), 3].sum) ∧
     0 ≤ [(1:ℚ), 3].foldl debit 2) :=
  ⟨by norm_num, balance_never_negative 2 [1, 3] (by norm_num) (by decide)⟩

/-! ### Claim C10 — unsupported tool names -/

/-- Claim C10 (confirmed): an invocation whose name is none of the fourteen
dispatched names yields the string result `"Tool not supported."`, a cost of
zero, and an unchanged balance; the declared `editImage` tool is such a
name. -/
theorem unsupported_tool_no_cost (env : ToolEnv) (s : Settings) (files : List FileNode)
    (call : ToolCall) (bal : ℚ) (h : call.name ∉ supportedToolNames) :
    (executeToolLogic env s files call).result = .str "Tool not supported." ∧
    (executeToolLogic env s files call).costToAdd = 0 ∧
    applyToolDebit (executeToolLogic env s files call).costToAdd bal = bal ∧
    "editImage" ∉ supportedToolNames := by
  have hn : ∀ x : String, x ∈ supportedToolNames → call.name ≠ x :=
    fun x hx he => h (he ▸ hx)
  have hfs : call.name ∉ fsToolNames := fun hm => h (by
    unfold supportedToolNames
    exact List.mem_append_right _ hm)
  have hmm : call.name ∉ memoryToolNames := fun hm => h (by
    unfold supportedToolNames
    exact List.mem_append_left _ (List.mem_append_right _ hm))
  have hres : dispatchBody env s files call = .ok (.str "Tool not supported.") := by
    unfold dispatchBody
    rw [if_neg (hn "calculator" (by decide)), if_neg (hn "webSearch" (by decide)),
      if_neg (hn "generateImage" (by decide)), if_neg (hn "generateAudio" (by decide)),
      if_neg (hn "saveMemory" (by decide)), if_neg (hn "updateMemory" (by decide)),
      if_neg (hn "deleteMemory" (by decide)), if_neg (hn "createFile" (by decide)),
      if_neg (hn "createFolder" (by decide)), if_neg (hn "deleteNode" (by decide)),
      if_neg (hn "readFile" (by decide)), if_neg (hn "editFile" (by decide)),
      if_neg (hn "renameNode" (by decide)), if_neg (hn "listFiles" (by decide))]
  have hr : (executeToolLogic env s files call).result = .str "Tool not supported." := by
    show executeResult env s files call = _
    unfold executeResult
    rw [hres]
  have hc : (executeToolLogic env s files call).costToAdd = 0 := by
    show toolCostOf s call (executeResult env s files call) = 0
    have hr2 : executeResult env s files call = .str "Tool not supported." := hr
    rw [hr2]
    unfold toolCostOf
    rw [if_neg (hn "webSearch" (by decide)), if_neg (hn "calculator" (by decide)),
      if_neg (hn "generateImage" (by decide)), if_neg (hn "generateAudio" (by decide)),
      if_neg hfs, if_neg hmm]
  refine ⟨hr, hc, ?_, by decide⟩
  rw [hc]
  simp [applyToolDebit]

/-- Witness for C10: the `editImage` invocation itself. -/
theorem unsupported_tool_no_cost_witness :
    editImageCall.name ∉ supportedToolNames ∧
    ((executeToolLogic envErr defaultSettings [] editImageCall).result = .str "Tool not supported." ∧
     (executeToolLogic envErr defaultSettings [] editImageCall).costToAdd = 0 ∧
     applyToolDebit (executeToolLogic envErr defaultSettings [] editImageCall).costToAdd 2 = 2 ∧
     "editImage" ∉ supportedToolNames) :=
  ⟨by decide, unsupported_tool_no_cost envErr defaultSettings [] editImageCall 2 (by decide)⟩

/-! ### Claim C3 — the per-family cost formula -/

/-- Claim C3 (confirmed): for every tool invocation the charged cost equals
the specification's per-family formula — `webSearch` `(0.01+t)*1.1`,
`calculator` `t*1.1`, image `(0.06+t)*1.1`, audio `(0.01+t+w*0.005)*1.1`,
filesystem/memory `(t+0.005)*1.1`, with the flat surcharge dropped exactly
when a caller credential exists for that capability and the 10% markup
applied exactly once — and the cost is never negative. -/
theorem tool_cost_matches_spec (env : ToolEnv) (s : Settings) (files : List FileNode)
    (call : ToolCall) :
    (executeToolLogic env s files call).costToAdd
      = specToolCost s call (executeToolLogic env s files call).result ∧
    0 ≤ (executeToolLogic env s files call).costToAdd := by
  have hc : (executeToolLogic env s files call).costToAdd
      = toolCostOf s call (executeResult env s files call) := rfl
  have hr : (executeToolLogic env s files call).result = executeResult env s files call := rfl
  rw [hc, hr]
  constructor
  · unfold toolCostOf specToolCost
    simp only [getTokenCost]
    split_ifs <;> first | rfl | (push_cast; ring)
  · unfold toolCostOf
    simp only [getTokenCost]
    split_ifs <;> positivity

/-! ### Scenario A and the approve/reject resolution claims -/

/-- Pricing of the default `fast` level from `AI_LEVELS`. -/
def lvlFast : AILevel := ⟨"gemini-2.5-flash", 75/1000, 30/100⟩

/-- The user turn of scenario A. -/
def userMsg1 : Message := { id := "u1", role := .user, text := "What is 2+2?", status := .sent }

/-- The service's stream for scenario A's first turn: usage counters are
reported and the calculator is requested. -/
def chunksCall : List StreamChunk := [⟨"", 7, 3, [calcCall]⟩]

/-- The turn input of scenario A's first turn, manual mode. -/
def manualCallInput : TurnInput := ⟨[userMsg1], chunksCall, none, .manual, lvlFast, "m1", "tX"⟩

/-- The same turn with the conversation switched to auto mode. -/
def autoCallInput : TurnInput := ⟨[userMsg1], chunksCall, none, .auto, lvlFast, "m1", "tX"⟩

/-- Scenario A's first turn, manual mode. -/
def turn1 : TurnResult := runTurn envCalc defaultSettings [] manualCallInput 2

/-- The conversation parked in `waiting_approval` after the first turn. -/
def conv0 : Conversation := { id := "c1", messages := [userMsg1, turn1.modelMsg], mode := some .manual }

/-- The application state before any approval. -/
def st0 : AppState := { conversations := [conv0], balance := 2, settings := defaultSettings }

/-- The state after the first `approve("c1","m1")`. -/
def st1 : AppState := (handleApproveTool envCalc [] st0 "c1" "m1" "t1").1

/-- The state after a second `approve("c1","m1")` on the same message. -/
def st2 : AppState := (handleApproveTool envCalc [] st1 "c1" "m1" "t2").1

/-- The message at conversation index `ci`, message index `mi`. -/
def msgAt (st : AppState) (ci mi : Nat) : Option Message :=
  (st.conversations[ci]?).bind fun c => c.messages[mi]?

theorem calc_cost_value :
    (executeToolLogic envCalc defaultSettings [] calcCall).costToAdd = 33/2000000 := by
  have hres : (executeToolLogic envCalc defaultSettings [] calcCall).costToAdd
      = toolCostOf defaultSettings calcCall (Json.num 4) := rfl
  have hin : getTokenCount (some calcCall.args) = 5 := rfl
  have hout : getTokenCount (some (Json.num 4)) = 1 := rfl
  rw [hres]
  unfold toolCostOf
  dsimp only
  rw [if_neg (by decide : ¬ calcCall.name = "webSearch"),
    if_pos (by decide : calcCall.name = "calculator"), hin, hout]
  norm_num [getTokenCost]

theorem st1_balance : st1.balance = 2 - 33/2000000 := by
  have hb : st1.balance
      = applyToolDebit (executeToolLogic envCalc defaultSettings [] calcCall).costToAdd 2 := rfl
  rw [hb, calc_cost_value]
  unfold applyToolDebit debit
  rw [if_pos (by norm_num : (0:ℚ) < 33/2000000),
    max_eq_right (by norm_num : (0:ℚ) ≤ 2 - 33/2000000)]

/-- Claim C1 (code bug): resolution is not a single-shot transition. The
approve handler only guards on `pendingToolCall` being present, and
resolution never clears it, so invoking `approve` a second time on the
already-resolved message debits the balance again and appends a second
function-result message. -/
theorem approve_second_invocation_debits_again :
    st1.balance = 2 - 33/2000000 ∧
    st2.balance = 2 - 33/1000000 ∧
    (st1.conversations.map fun c => c.messages.length) = [3] ∧
    (st2.conversations.map fun c => c.messages.length) = [4] ∧
    ((st2.conversations.headD ⟨"", [], none⟩).messages.filter fun m => m.role = .function).length = 2 ∧
    (handleApproveTool envCalc [] st1 "c1" "m1" "t2").2 = true := by
  refine ⟨st1_balance, ?_, rfl, rfl, rfl, rfl⟩
  have hb : st2.balance
      = applyToolDebit (executeToolLogic envCalc defaultSettings [] calcCall).costToAdd st1.balance := rfl
  rw [hb, calc_cost_value, st1_balance]
  unfold applyToolDebit debit
  rw [if_pos (by norm_num : (0:ℚ) < 33/2000000),
    max_eq_right (by norm_num : (0:ℚ) ≤ 2 - 33/2000000 - 33/2000000)]
  norm_num

/-- Claim C2 counterexample: in the reachable state `st1` (one approve after
a manual-mode tool request), the resolved model message has the terminal
status `done` and still carries its `pendingToolCall`. -/
theorem done_message_still_carries_pending :
    (msgAt st1 0 1).map (fun m => (m.status, m.pendingToolCall.map fun tc => tc.name))
      = some (.done, some "calculator") := rfl

/-- Claim C2 (amended): a message acquires `pendingToolCall` when its tool
call is parked — status `waiting_approval` in manual mode, or resolved in
place under auto mode — but resolution does not clear it: a model message
resolved via approve, via reject, or via auto-mode execution reaches the
terminal status `done` still carrying its `pendingToolCall`. The four
conjuncts cover, in order: manual parking, auto-mode resolution, the
approve transition, and the reject transition. -/
theorem pending_tool_call_lifecycle (env : ToolEnv) (s : Settings) (files : List FileNode)
    (bal : ℚ) (inpM inpA : TurnInput) (tM tA : String) (pM cM pA cA : Nat)
    (tcM tcA : ToolCall)
    (hsM : consumeStream inpM.abortAt inpM.chunks 0 "" 0 0 = ⟨tM, pM, cM, .toolCall tcM⟩)
    (hmM : inpM.mode = .manual)
    (hsA : consumeStream inpA.abortAt inpA.chunks 0 "" 0 0 = ⟨tA, pA, cA, .toolCall tcA⟩)
    (hmA : inpA.mode = .auto)
    (st : AppState) (convId msgId tId : String) (conv : Conversation) (msg : Message)
    (call : ToolCall)
    (hc : st.conversations.find? (fun c => c.id = convId) = some conv)
    (hm : conv.messages.find? (fun m => m.id = msgId) = some msg)
    (hp : msg.pendingToolCall = some call) :
    ((runTurn env s files inpM bal).modelMsg.status = .waiting_approval ∧
     (runTurn env s files inpM bal).modelMsg.pendingToolCall = some tcM) ∧
    ((runTurn env s files inpA bal).modelMsg.status = .done ∧
     (runTurn env s files inpA bal).modelMsg.pendingToolCall = some tcA) ∧
    (∃ c2 ∈ (handleApproveTool env files st convId msgId tId).1.conversations,
      c2.id = convId ∧ ∃ m2 ∈ c2.messages,
        m2.id = msgId ∧ m2.status = .done ∧ m2.pendingToolCall = some call) ∧
    (∃ c2 ∈ (handleRejectTool st convId msgId tId).1.conversations,
      c2.id = convId ∧ ∃ m2 ∈ c2.messages,
        m2.id = msgId ∧ m2.status = .done ∧ m2.pendingToolCall = some call) := by
  have hcid : conv.id = convId := by simpa using List.find?_some hc
  have hmid : msg.id = msgId := by simpa using List.find?_some hm
  have hcmem : conv ∈ st.conversations := List.mem_of_find?_eq_some hc
  have hmmem : msg ∈ conv.messages := List.mem_of_find?_eq_some hm
  refine ⟨?_, ?_, ?_, ?_⟩
  · unfold runTurn
    rw [hsM]
    dsimp only
    rw [hmM]
    dsimp only
    exact ⟨rfl, rfl⟩
  · unfold runTurn
    rw [hsA]
    dsimp only
    rw [hmA]
    dsimp only
    exact ⟨rfl, rfl⟩
  · unfold handleApproveTool
    rw [hc]
    dsimp only
    rw [hm]
    dsimp only
    rw [hp]
    dsimp only [setStatusDone]
    refine ⟨_, List.mem_map_of_mem _ hcmem, ?_, ?_⟩
    · rw [if_pos hcid]
      exact hcid
    · rw [if_pos hcid]
      refine ⟨_, List.mem_append_left _ (List.mem_map_of_mem _ hmmem), ?_⟩
      rw [if_pos hmid]
      exact ⟨hmid, rfl, hp⟩
  · unfold handleRejectTool
    rw [hc]
    dsimp only
    rw [hm]
    dsimp only
    rw [hp]
    dsimp only [setStatusDone]
    refine ⟨_, List.mem_map_of_mem _ hcmem, ?_, ?_⟩
    · rw [if_pos hcid]
      exact hcid
    · rw [if_pos hcid]
      refine ⟨_, List.mem_append_left _ (List.mem_map_of_mem _ hmmem), ?_⟩
      rw [if_pos hmid]
      exact ⟨hmid, rfl, hp⟩

/-- Witness for the amended C2: the scenario-A tool request parked in
manual mode, the same turn under auto mode, and the approve and reject
transitions on the parked state. -/
theorem pending_tool_call_lifecycle_witness :
    (consumeStream manualCallInput.abortAt manualCallInput.chunks 0 "" 0 0
        = ⟨"", 7, 3, .toolCall calcCall⟩) ∧
    (manualCallInput.mode = .manual) ∧ (autoCallInput.mode = .auto) ∧
    (st0.conversations.find? (fun c => c.id = "c1") = some conv0) ∧
    (conv0.messages.find? (fun m => m.id = "m1") = some turn1.modelMsg) ∧
    (turn1.modelMsg.pendingToolCall = some calcCall) ∧
    (((runTurn envCalc defaultSettings [] manualCallInput 2).modelMsg.status = .waiting_approval ∧
      (runTurn envCalc defaultSettings [] manualCallInput 2).modelMsg.pendingToolCall
        = some calcCall) ∧
     ((runTurn envCalc defaultSettings [] autoCallInput 2).modelMsg.status = .done ∧
      (runTurn envCalc defaultSettings [] autoCallInput 2).modelMsg.pendingToolCall
        = some calcCall) ∧
     (∃ c2 ∈ (handleApproveTool envCalc [] st0 "c1" "m1" "t1").1.conversations,
       c2.id = "c1" ∧ ∃ m2 ∈ c2.messages,
         m2.id = "m1" ∧ m2.status = .done ∧ m2.pendingToolCall = some calcCall) ∧
     (∃ c2 ∈ (handleRejectTool st0 "c1" "m1" "t1").1.conversations,
       c2.id = "c1" ∧ ∃ m2 ∈ c2.messages,
         m2.id = "m1" ∧ m2.status = .done ∧ m2.pendingToolCall = some calcCall)) :=
  ⟨rfl, rfl, rfl, rfl, rfl, rfl,
    pending_tool_call_lifecycle envCalc defaultSettings [] 2 manualCallInput autoCallInput
      "" "" 7 3 7 3 calcCall calcCall rfl rfl rfl rfl st0 "c1" "m1" "t1" conv0
      turn1.modelMsg calcCall rfl rfl rfl⟩

/-! ### Claim C9 — scenario A end to end -/

/-- The service's stream for the follow-up turn: a plain completion. -/
def chunksDone : List StreamChunk := [⟨"2 + 2 = 4.", 20, 6, []⟩]

/-- The history after the approve, as the follow-up turn receives it. -/
def history2 : List Message := (st1.conversations.headD ⟨"", [], none⟩).messages

/-- Scenario A's second turn, running to completion. -/
def turn2 : TurnResult :=
  runTurn envCalc defaultSettings [] ⟨history2, chunksDone, none, .manual, lvlFast, "m2", "tY"⟩ st1.balance

/-- Claim C9 (amended): scenario A behaves as claimed — `waiting_approval`,
approve executes the calculator yielding `toolResult.result = 4`, and the
follow-up turn completes with status `done` — except that the debited cost
is `(ceil(len(serialize(args))/4) + ceil(len("4")/4)) * 0.0000025 * 1.1`
with `serialize(args)` the JSON text of the whole argument object (and the
two token counts rounded up separately), not the claim's
`ceil(len("2+2")/4 + len("4")/4) * 0.0000025 * 1.1`. -/
theorem scenario_a_amended :
    turn1.modelMsg.status = .waiting_approval ∧
    turn1.modelMsg.pendingToolCall.map (fun tc => tc.name) = some "calculator" ∧
    ((msgAt st1 0 2).bind fun m => m.toolResult.map fun tr => tr.result) = some (.num 4) ∧
    st0.balance - st1.balance
      = ((ceilDiv4 (Json.stringify (Json.obj [("expression", Json.str "2+2")])).length
          + ceilDiv4 ("4" : String).length : Nat) : ℚ) * (25/10000000) * (11/10) ∧
    turn2.modelMsg.status = .done := by
  refine ⟨rfl, rfl, rfl, ?_, rfl⟩
  have h0 : st0.balance = 2 := rfl
  have hr : ceilDiv4 (Json.stringify (Json.obj [("expression", Json.str "2+2")])).length
      + ceilDiv4 ("4" : String).length = 6 := rfl
  rw [h0, st1_balance, hr]
  norm_num

/-- Claim C9 counterexample: the debit the program performs differs from the
value of the claim's cost expression. -/
theorem scenario_a_cost_counterexample :
    st0.balance - st1.balance = 33/2000000 ∧
    (⌈((("2+2" : String).length : ℚ)) / 4 + ((("4" : String).length : ℚ)) / 4⌉ : ℚ)
        * (25/10000000) * (11/10) = 11/4000000 ∧
    (33 : ℚ)/2000000 ≠ 11/4000000 := by
  refine ⟨?_, ?_, by norm_num⟩
  · have h0 : st0.balance = 2 := rfl
    rw [h0, st1_balance]
    norm_num
  · have h2 : ("2+2" : String).length = 3 := rfl
    have h3 : ("4" : String).length = 1 := rfl
    rw [h2, h3]
    norm_num

/-! ### Claim C5 — cancellation during streaming -/

theorem consumeStream_abort (n : Nat) :
    ∀ (l : List StreamChunk) (i : Nat) (acc : String) (p c : Nat),
      n - i < l.length → (∀ ch ∈ l.take (n - i), ch.functionCalls = []) →
      ∃ p2 c2, consumeStream (some n) l i acc p c =
        ⟨acc ++ concatTexts (l.take (n - i)), p2, c2, .aborted⟩ := by
  intro l
  induction l with
  | nil =>
    intro i acc p c hlen _
    exact absurd hlen (by simp)
  | cons ch rest ih =>
    intro i acc p c hlen hfc
    by_cases hni : n ≤ i
    · have h0 : n - i = 0 := Nat.sub_eq_zero_of_le hni
      refine ⟨p, c, ?_⟩
      rw [consumeStream, if_pos (show abortNow (some n) i = true by simp [abortNow, hni])]
      rw [h0]
      simp [concatTexts, String.append_empty]
    · push_neg at hni
      have hk : n - i = (n - (i + 1)) + 1 := by omega
      have hch : ch.functionCalls = [] := by
        apply hfc
        rw [hk]
        exact List.mem_cons_self _ _
      have hlen2 : n - (i + 1) < rest.length := by
        simp only [List.length_cons] at hlen
        omega
      have hfc2 : ∀ x ∈ rest.take (n - (i + 1)), x.functionCalls = [] := by
        intro x hx
        apply hfc
        rw [hk, List.take_succ_cons]
        exact List.mem_cons_of_mem _ hx
      obtain ⟨p2, c2, hrec⟩ := ih (i + 1) (acc ++ ch.text)
        (if ch.promptTokenCount ≠ 0 then ch.promptTokenCount else p)
        (if ch.candidatesTokenCount ≠ 0 then ch.candidatesTokenCount else c) hlen2 hfc2
      refine ⟨p2, c2, ?_⟩
      rw [consumeStream, if_neg (show ¬ abortNow (some n) i = true by simp [abortNow]; omega)]
      dsimp only
      rw [hch]
      dsimp only
      rw [hrec, hk, List.take_succ_cons]
      rw [show concatTexts (ch :: rest.take (n - (i + 1)))
          = ch.text ++ concatTexts (rest.take (n - (i + 1))) from rfl]
      rw [String.append_assoc]

/-- Claim C5 (confirmed): if the cancellation signal is raised after `n`
increments, while the stream is still live and before any tool call, the
turn ends `aborted`, the message text is exactly the concatenation of the
`n` consumed increments followed by the stopped-by-user marker, and no
balance debit occurs. -/
theorem abort_preserves_text_no_debit (env : ToolEnv) (s : Settings) (files : List FileNode)
    (inp : TurnInput) (bal : ℚ) (n : Nat)
    (ha : inp.abortAt = some n) (hn : n < inp.chunks.length)
    (hfc : ∀ ch ∈ inp.chunks.take n, ch.functionCalls = []) :
    (runTurn env s files inp bal).modelMsg.status = .aborted ∧
    (runTurn env s files inp bal).modelMsg.text
      = concatTexts (inp.chunks.take n) ++ stoppedMarker ∧
    (runTurn env s files inp bal).balance = bal ∧
    (runTurn env s files inp bal).toolMsg = none ∧
    (runTurn env s files inp bal).action = .stopAborted := by
  obtain ⟨p2, c2, hcs⟩ := consumeStream_abort n inp.chunks 0 "" 0 0
    (by simpa using hn) (by simpa using hfc)
  unfold runTurn
  rw [ha, hcs]
  dsimp only
  rw [Nat.sub_zero, String.empty_append]
  exact ⟨rfl, rfl, rfl, rfl, rfl⟩

/-- The stream of scenario B: `stop()` is called after three text
increments; a fourth increment is never consumed. -/
def abortChunks : List StreamChunk :=
  [⟨"Hello ", 0, 0, []⟩, ⟨"wor", 0, 0, []⟩, ⟨"ld", 0, 0, []⟩, ⟨"never consumed", 9, 9, []⟩]

/-- The turn input of scenario B. -/
def abortInput : TurnInput := ⟨[userMsg1], abortChunks, some 3, .manual, lvlFast, "m1", "t1"⟩

/-- Witness for C5 at scenario B. -/
theorem abort_preserves_text_no_debit_witness :
    (abortInput.abortAt = some 3) ∧ (3 < abortInput.chunks.length) ∧
    ((runTurn envErr defaultSettings [] abortInput 2).modelMsg.status = .aborted ∧
     (runTurn envErr defaultSettings [] abortInput 2).modelMsg.text
       = concatTexts (abortInput.chunks.take 3) ++ stoppedMarker ∧
     (runTurn envErr defaultSettings [] abortInput 2).balance = 2 ∧
     (runTurn envErr defaultSettings [] abortInput 2).toolMsg = none ∧
     (runTurn envErr defaultSettings [] abortInput 2).action = .stopAborted) :=
  ⟨rfl, by decide,
    abort_preserves_text_no_debit envErr defaultSettings [] abortInput 2 3 rfl (by decide)
      (by
        intro ch hch
        simp only [abortInput, abortChunks, List.take_succ_cons, List.take_zero,
          List.mem_cons, List.not_mem_nil, or_false] at hch
        rcases hch with h | h | h <;> subst h <;> rfl)⟩

/-! ### Claim C6 — tool exceptions are successful tool turns -/

/-- Claim C6 (confirmed): when a tool execution throws, the invocation
yields a function-result message whose `toolResult.result` is the string
`"Error executing tool"` with status `done` (never `error`), and the
auto-mode orchestrator treats it as a successful tool turn, issuing the
follow-up model turn. -/
theorem tool_exception_is_successful_turn (env : ToolEnv) (s : Settings) (files : List FileNode)
    (inp : TurnInput) (bal : ℚ) (t : String) (p0 c0 : Nat) (tc : ToolCall)
    (hs : consumeStream inp.abortAt inp.chunks 0 "" 0 0 = ⟨t, p0, c0, .toolCall tc⟩)
    (hmode : inp.mode = .auto)
    (herr : dispatchBody env s files tc = .error ()) :
    (executeToolLogic env s files tc).result = .str "Error executing tool" ∧
    ∃ tm, (runTurn env s files inp bal).toolMsg = some tm ∧
      tm.role = .function ∧ tm.status = .done ∧ tm.status ≠ .error ∧
      (tm.toolResult.map fun tr => tr.result) = some (.str "Error executing tool") ∧
      (runTurn env s files inp bal).modelMsg.status = .done ∧
      (runTurn env s files inp bal).action = .recurseTool := by
  have hres : (executeToolLogic env s files tc).result = .str "Error executing tool" := by
    show executeResult env s files tc = _
    unfold executeResult
    rw [herr]
  refine ⟨hres, ?_⟩
  unfold runTurn
  rw [hs]
  dsimp only
  rw [hmode]
  dsimp only
  refine ⟨_, rfl, rfl, rfl, fun h => MessageStatus.noConfusion h, ?_, rfl, rfl⟩
  show some (executeToolLogic env s files tc).result = some (.str "Error executing tool")
  rw [hres]

/-- A `webSearch` invocation used to exercise the exception path. -/
def searchCall : ToolCall := ⟨some "call-2", "webSearch", .obj [("query", .str "lean theorem prover")]⟩

/-- An auto-mode turn whose stream requests `webSearch`; in `envErr` the
relay throws. -/
def errInput : TurnInput := ⟨[userMsg1], [⟨"", 0, 0, [searchCall]⟩], none, .auto, lvlFast, "m1", "t1"⟩

/-- Witness for C6: the search relay throws inside the executor. -/
theorem tool_exception_is_successful_turn_witness :
    (consumeStream errInput.abortAt errInput.chunks 0 "" 0 0 = ⟨"", 0, 0, .toolCall searchCall⟩) ∧
    (errInput.mode = .auto) ∧
    (dispatchBody envErr defaultSettings [] searchCall = .error ()) ∧
    ((executeToolLogic envErr defaultSettings [] searchCall).result = .str "Error executing tool" ∧
     ∃ tm, (runTurn envErr defaultSettings [] errInput 2).toolMsg = some tm ∧
       tm.role = .function ∧ tm.status = .done ∧ tm.status ≠ .error ∧
       (tm.toolResult.map fun tr => tr.result) = some (.str "Error executing tool") ∧
       (runTurn envErr defaultSettings [] errInput 2).modelMsg.status = .done ∧
       (runTurn envErr defaultSettings [] errInput 2).action = .recurseTool) :=
  ⟨rfl, rfl, rfl,
    tool_exception_is_successful_turn envErr defaultSettings [] errInput 2 "" 0 0 searchCall
      rfl rfl rfl⟩

/-! ### Claim C7 — the fallback prompt-token estimator -/

/-- Claim C7 (amended): whenever the service reports no prompt-token count,
both the tool-call branch and the normal-completion branch record the same
fallback estimate `estimatePromptTokens`, which equals
`ceil(totalUnits/4)` where a text part contributes its character length and
each inline attachment payload contributes `ceil(payloadLength/4)` — the
attachment bytes pass through the bytes-over-4 heuristic twice, they are
not counted as raw bytes. -/
theorem fallback_estimator_uniform (env : ToolEnv) (s : Settings) (files : List FileNode)
    (inp inp2 : TurnInput) (bal : ℚ) (t t2 : String) (c0 c02 : Nat) (tc : ToolCall)
    (h1 : consumeStream inp.abortAt inp.chunks 0 "" 0 0 = ⟨t, 0, c0, .toolCall tc⟩)
    (h2 : consumeStream inp2.abortAt inp2.chunks 0 "" 0 0 = ⟨t2, 0, c02, .completed⟩) :
    (∃ ci, (runTurn env s files inp bal).modelMsg.tokens
        = some ⟨estimatePromptTokens (buildContents inp.history), ci,
            estimatePromptTokens (buildContents inp.history) + ci⟩) ∧
    (∃ ci, (runTurn env s files inp2 bal).modelMsg.tokens
        = some ⟨estimatePromptTokens (buildContents inp2.history), ci,
            estimatePromptTokens (buildContents inp2.history) + ci⟩) ∧
    (∀ cs : List Content, estimatePromptTokens cs
        = ceilDiv4 ((cs.map (fun c =>
            (c.parts.map (fun p => match p with
              | .text s2 => s2.length
              | .inlineData d _ => ceilDiv4 d.length)).sum)).sum)) := by
  refine ⟨?_, ?_, fun cs => rfl⟩
  · unfold runTurn
    rw [h1]
    dsimp only
    cases hmode : inp.mode
    · exact ⟨_, rfl⟩
    · exact ⟨_, rfl⟩
  · unfold runTurn
    rw [h2]
    dsimp only
    exact ⟨_, rfl⟩

/-- A sent user message carrying one 8-byte inline attachment and no text. -/
def attMsg : Message :=
  { id := "u1", role := .user, text := "", status := .sent,
    attachments := [⟨"f.bin", "application/octet-stream", "AAAAAAAA"⟩] }

/-- A turn over the attachment history whose stream requests a tool and
reports no usage. -/
def attInputTool : TurnInput := ⟨[attMsg], [⟨"", 0, 0, [searchCall]⟩], none, .manual, lvlFast, "m1", "t1"⟩

/-- A turn over the attachment history whose stream completes normally and
reports no usage. -/
def attInputDone : TurnInput := ⟨[attMsg], [⟨"ok", 0, 0, []⟩], none, .manual, lvlFast, "m2", "t2"⟩

/-- Witness for the amended C7 at the attachment history. -/
theorem fallback_estimator_uniform_witness :
    (consumeStream attInputTool.abortAt attInputTool.chunks 0 "" 0 0
        = ⟨"", 0, 0, .toolCall searchCall⟩) ∧
    (consumeStream attInputDone.abortAt attInputDone.chunks 0 "" 0 0
        = ⟨"ok", 0, 0, .completed⟩) ∧
    ((∃ ci, (runTurn envErr defaultSettings [] attInputTool 2).modelMsg.tokens
        = some ⟨estimatePromptTokens (buildContents attInputTool.history), ci,
            estimatePromptTokens (buildContents attInputTool.history) + ci⟩) ∧
     (∃ ci, (runTurn envErr defaultSettings [] attInputDone 2).modelMsg.tokens
        = some ⟨estimatePromptTokens (buildContents attInputDone.history), ci,
            estimatePromptTokens (buildContents attInputDone.history) + ci⟩) ∧
     (∀ cs : List Content, estimatePromptTokens cs
        = ceilDiv4 ((cs.map (fun c =>
            (c.parts.map (fun p => match p with
              | .text s2 => s2.length
              | .inlineData d _ => ceilDiv4 d.length)).sum)).sum))) :=
  ⟨rfl, rfl,
    fallback_estimator_uniform envErr defaultSettings [] attInputTool attInputDone 2
      "" "ok" 0 0 searchCall rfl rfl⟩

/-- Claim C7 counterexample: on a history with one 8-byte attachment the
program records 1 prompt token, while the claim's raw-byte formula yields
2. -/
theorem fallback_estimator_counterexample :
    (runTurn envErr defaultSettings [] attInputDone 2).modelMsg.tokens = some ⟨1, 1, 2⟩ ∧
    estimatePromptTokens (buildContents [attMsg]) = 1 ∧
    specEstimatePromptTokens (buildContents [attMsg]) = 2 ∧
    (1 : Nat) ≠ 2 :=
  ⟨rfl, rfl, rfl, by decide⟩

/-! ### Claim C8 — A/B diversion and variant selection -/

theorem append_shift (P hdr a mid b : String) :
    P ++ (hdr ++ ((a ++ mid) ++ b)) = ((P ++ (hdr ++ a)) ++ mid) ++ b := by
  simp [String.append_assoc]

theorem prefLines_mem_split (p : String) : ∀ l : List String, p ∈ l →
    ∃ a b, prefLines l = a ++ ("- " ++ p ++ "\n") ++ b := by
  intro l
  induction l with
  | nil => intro h; cases h
  | cons q rest ih =>
    intro h
    rcases List.mem_cons.mp h with rfl | h2
    · refine ⟨"", prefLines rest, ?_⟩
      rw [String.empty_append]
      rfl
    · obtain ⟨a, b, hab⟩ := ih h2
      refine ⟨("- " ++ q ++ "\n") ++ a, b, ?_⟩
      show ("- " ++ q ++ "\n") ++ prefLines rest = _
      rw [hab]
      simp [String.append_assoc]

/-- Every preference, once recorded, occurs in the system instruction built
for every later turn. -/
theorem sysInst_contains_pref (s : Settings) (today p : String) (hp : p ∈ s.preferences) :
    ∃ a b, buildSysInst s today = a ++ ("- " ++ p ++ "\n") ++ b := by
  obtain ⟨a, b, hab⟩ := prefLines_mem_split p s.preferences hp
  have hcond : ¬ s.preferences.isEmpty = true := by
    cases hl : s.preferences with
    | nil => rw [hl] at hp; cases hp
    | cons _ _ => simp [hl]
  unfold buildSysInst
  rw [if_pos hcond, hab]
  exact ⟨_, b, append_shift _ _ a _ b⟩

/-- Claim C8 (amended): a user turn is diverted to the A/B prober exactly
when the 1-indexed user-turn count is a multiple of 10; selecting a variant
replaces the probe message's text, clears `variants`, sets status `done`,
and appends the durable preference string
`"User prefers <tone> tone."` (with a trailing period, unlike the claim's
quoted string) to the profile, which is injected into every future system
instruction. -/
theorem ab_divert_and_variant_selection
    (msgs : List Message) (um : Message) (hum : um.role = .user)
    (st : AppState) (convId msgId today : String) (v : Variant)
    (conv : Conversation) (msg : Message)
    (hcmem : conv ∈ st.conversations) (hcid : conv.id = convId)
    (hmmem : msg ∈ conv.messages) (hmid : msg.id = msgId) :
    (isABTest (msgs ++ [um]) = true ↔ userMsgCount (msgs ++ [um]) % 10 = 0) ∧
    (handleSelectVariant st convId msgId v).settings.preferences
      = st.settings.preferences ++ ["User prefers " ++ v.tone ++ " tone."] ∧
    (∃ c2 ∈ (handleSelectVariant st convId msgId v).conversations, ∃ m2 ∈ c2.messages,
        m2.id = msgId ∧ m2.text = v.text ∧ m2.status = .done ∧ m2.variants = none) ∧
    (∃ a b, buildSysInst (handleSelectVariant st convId msgId v).settings today
        = a ++ ("- " ++ ("User prefers " ++ v.tone ++ " tone.") ++ "\n") ++ b) := by
  refine ⟨?_, rfl, ?_, ?_⟩
  · have hpos : 0 < userMsgCount (msgs ++ [um]) := by
      unfold userMsgCount
      rw [List.filter_append]
      simp [List.filter, hum]
    unfold isABTest
    constructor
    · intro h
      simp only [Bool.and_eq_true, decide_eq_true_eq] at h
      exact h.2
    · intro h
      simp [hpos, h]
  · unfold handleSelectVariant
    dsimp only
    refine ⟨_, List.mem_map_of_mem _ hcmem, ?_⟩
    rw [if_pos hcid]
    refine ⟨_, List.mem_map_of_mem _ hmmem, ?_⟩
    rw [if_pos hmid]
    exact ⟨hmid, rfl, rfl, rfl⟩
  · apply sysInst_contains_pref
    show _ ∈ st.settings.preferences ++ ["User prefers " ++ v.tone ++ " tone."]
    exact List.mem_append_right _ (List.mem_cons_self _ _)

/-- Witness for the amended C8 at the scenario-A state. -/
theorem ab_divert_and_variant_selection_witness :
    (userMsg1.role = .user) ∧ (conv0 ∈ st0.conversations) ∧ (userMsg1 ∈ conv0.messages) ∧
    ((isABTest ([] ++ [userMsg1]) = true ↔ userMsgCount ([] ++ [userMsg1]) % 10 = 0) ∧
     (handleSelectVariant st0 "c1" "u1" ⟨"B", "B text", "Warm & Detailed"⟩).settings.preferences
       = st0.settings.preferences ++ ["User prefers " ++ "Warm & Detailed" ++ " tone."] ∧
     (∃ c2 ∈ (handleSelectVariant st0 "c1" "u1" ⟨"B", "B text", "Warm & Detailed"⟩).conversations,
        ∃ m2 ∈ c2.messages,
          m2.id = "u1" ∧ m2.text = "B text" ∧ m2.status = .done ∧ m2.variants = none) ∧
     (∃ a b, buildSysInst
          (handleSelectVariant st0 "c1" "u1" ⟨"B", "B text", "Warm & Detailed"⟩).settings "2026-10-11"
        = a ++ ("- " ++ ("User prefers " ++ "Warm & Detailed" ++ " tone.") ++ "\n") ++ b)) :=
  ⟨rfl, List.mem_cons_self _ _, List.mem_cons_self _ _,
    ab_divert_and_variant_selection [] userMsg1 rfl st0 "c1" "u1" "2026-10-11"
      ⟨"B", "B text", "Warm & Detailed"⟩ conv0 userMsg1
      (List.mem_cons_self _ _) rfl (List.mem_cons_self _ _) rfl⟩

/-- The state after selecting variant B on the scenario state. -/
def selState : AppState := handleSelectVariant st0 "c1" "m1" ⟨"B", "B text", "Warm & Detailed"⟩

/-- Claim C8 counterexample: the durable preference string the program
records carries a trailing period; the claim's quoted string (without the
period) is not what is appended. -/
theorem variant_preference_string_counterexample :
    selState.settings.preferences = ["User prefers Warm & Detailed tone."] ∧
    "User prefers Warm & Detailed tone" ∉ selState.settings.preferences :=
  ⟨rfl, by decide⟩

end INEX
